import Mathlib

/-!
Verification of the progression / loot / completion-undo ledger core of the
obsidian-roguelike plugin (src/services/profileService.ts,
src/services/lootService.ts, callers in src/main.ts).

The TypeScript code is shallowly embedded: JavaScript numbers holding
integer quantities become `Nat` (the source clamps every subtraction with
`Math.max(0, _)`, which coincides with truncated `Nat` subtraction), the
probability arithmetic of the loot roller becomes exact rational
arithmetic over `ℚ`, calendar dates (`YYYY-MM-DD` strings parsed to UTC
midnight) become epoch day numbers `Nat`, and the ambient clock
(`new Date()`) and random loot rolls become explicit parameters.
-/

/-! ## Progression calculator (profileService.ts) -/

/-- `xpForLevel` from profileService.ts:
`Math.floor(100 * Math.pow(1.5, level - 1))`, in exact arithmetic
`⌊100 * 3^(level-1) / 2^(level-1)⌋`. -/
def xpForLevel (level : Nat) : Nat :=
  100 * 3 ^ (level - 1) / 2 ^ (level - 1)

theorem xpForLevel_pos (level : Nat) : 0 < xpForLevel level := by
  unfold xpForLevel
  have h2 : 0 < 2 ^ (level - 1) := Nat.pos_pow_of_pos _ (by norm_num)
  have h3 : 2 ^ (level - 1) ≤ 100 * 3 ^ (level - 1) := by
    calc 2 ^ (level - 1) ≤ 3 ^ (level - 1) :=
          Nat.pow_le_pow_left (by norm_num) _
      _ ≤ 100 * 3 ^ (level - 1) := Nat.le_mul_of_pos_left _ (by norm_num)
  exact Nat.div_pos h3 h2

/-- The `while` loop of `levelFromXP`: starting from `level` with
`totalRequired` XP already accounted for, advance while the next level's
requirement still fits under `xp`. -/
def levelFromXPAux (xp level totalRequired : Nat) : Nat :=
  if _h : totalRequired + xpForLevel level ≤ xp then
    levelFromXPAux xp (level + 1) (totalRequired + xpForLevel level)
  else
    level
termination_by xp - totalRequired
decreasing_by
  have := xpForLevel_pos level
  omega

/-- `levelFromXP` from profileService.ts. -/
def levelFromXP (xp : Nat) : Nat :=
  levelFromXPAux xp 1 0

/-- The `for` loop of `xpToNextLevel`: total XP consumed by all levels
strictly below `level` (`Σ_{i=1}^{level-1} xpForLevel i`). -/
def sumXpBelow : Nat → Nat
  | 0 => 0
  | 1 => 0
  | (l + 2) => sumXpBelow (l + 1) + xpForLevel (l + 1)

structure LevelProgress where
  current : Int
  required : Int
  progress : Int
deriving Repr, DecidableEq

/-- `xpToNextLevel` from profileService.ts. -/
def xpToNextLevel (xp : Nat) : LevelProgress :=
  let level := levelFromXP xp
  let totalForCurrentLevel := sumXpBelow level
  let xpInCurrentLevel : Int := (xp : Int) - (totalForCurrentLevel : Int)
  let required : Int := (xpForLevel level : Int)
  { current := xpInCurrentLevel
  , required := required
  , progress := xpInCurrentLevel * 100 / required }

/-! ### Loop lemmas for `levelFromXPAux`, by induction on the fuel
`xp - totalRequired` (the termination measure of the while loop). -/

theorem levelFromXPAux_le_fuel (n : Nat) :
    ∀ xp level tr, xp - tr ≤ n → level ≤ levelFromXPAux xp level tr := by
  induction n with
  | zero =>
    intro xp level tr hn
    rw [levelFromXPAux]
    split
    · exfalso
      have := xpForLevel_pos level
      omega
    · exact Nat.le_refl level
  | succ m ih =>
    intro xp level tr hn
    rw [levelFromXPAux]
    split
    · rename_i hc
      have hpos := xpForLevel_pos level
      have hm : xp - (tr + xpForLevel level) ≤ m := by omega
      exact Nat.le_trans (Nat.le_succ level) (ih xp (level + 1) _ hm)
    · exact Nat.le_refl level

theorem levelFromXPAux_le (xp level tr : Nat) :
    level ≤ levelFromXPAux xp level tr :=
  levelFromXPAux_le_fuel (xp - tr) xp level tr (Nat.le_refl _)

theorem levelFromXPAux_mono_fuel (n : Nat) :
    ∀ xp1 xp2 level tr, xp2 - tr ≤ n → xp1 ≤ xp2 →
      levelFromXPAux xp1 level tr ≤ levelFromXPAux xp2 level tr := by
  induction n with
  | zero =>
    intro xp1 xp2 level tr hn hle
    conv_lhs => rw [levelFromXPAux]
    split
    · exfalso
      have := xpForLevel_pos level
      omega
    · exact levelFromXPAux_le xp2 level tr
  | succ m ih =>
    intro xp1 xp2 level tr hn hle
    conv_lhs => rw [levelFromXPAux]
    split
    · rename_i h1
      conv_rhs => rw [levelFromXPAux]
      rw [dif_pos (show tr + xpForLevel level ≤ xp2 by omega)]
      have hpos := xpForLevel_pos level
      exact ih xp1 xp2 (level + 1) (tr + xpForLevel level) (by omega) hle
    · exact levelFromXPAux_le xp2 level tr

theorem sumXpBelow_succ (level : Nat) (h : 1 ≤ level) :
    sumXpBelow (level + 1) = sumXpBelow level + xpForLevel level := by
  match level, h with
  | (l + 1), _ => rfl

theorem levelFromXPAux_spec_fuel (n : Nat) :
    ∀ xp level tr, xp - tr ≤ n → 1 ≤ level → tr = sumXpBelow level →
      tr ≤ xp →
      sumXpBelow (levelFromXPAux xp level tr) ≤ xp ∧
        xp < sumXpBelow (levelFromXPAux xp level tr) +
              xpForLevel (levelFromXPAux xp level tr) := by
  induction n with
  | zero =>
    intro xp level tr hn h1 hsum hle
    rw [levelFromXPAux]
    split
    · exfalso
      have := xpForLevel_pos level
      omega
    · rename_i hc
      subst hsum
      exact ⟨hle, by omega⟩
  | succ m ih =>
    intro xp level tr hn h1 hsum hle
    rw [levelFromXPAux]
    split
    · rename_i hc
      have hpos := xpForLevel_pos level
      exact ih xp (level + 1) _ (by omega) (by omega)
        (by rw [sumXpBelow_succ level h1, hsum]) hc
    · rename_i hc
      subst hsum
      exact ⟨hle, by omega⟩

theorem levelFromXP_spec (xp : Nat) :
    sumXpBelow (levelFromXP xp) ≤ xp ∧
      xp < sumXpBelow (levelFromXP xp) + xpForLevel (levelFromXP xp) :=
  levelFromXPAux_spec_fuel xp xp 1 0 (Nat.le_refl xp) (Nat.le_refl 1) rfl
    (Nat.zero_le xp)

/-! ## Loot roller (lootService.ts)

The JavaScript floating-point probability arithmetic is embedded as exact
rational arithmetic over `ℚ`; every decimal literal of the source
(`0.05`, `0.30 - level * 0.01`, ...) is exactly representable. -/

inductive Rarity where
  | common
  | uncommon
  | rare
  | epic
  | legendary
deriving DecidableEq, Repr

inductive LootSource where
  | task
  | levelup
  | achievement
  | boss
deriving DecidableEq, Repr

structure DropChances where
  dropRate : ℚ
  common : ℚ
  uncommon : ℚ
  rare : ℚ
  epic : ℚ
  legendary : ℚ
deriving Repr, DecidableEq

/-- `getDropChances` from lootService.ts: the base drop rate and the five
level-scaled rarity weights (`common` is the remainder). -/
def getDropChances (level : ℚ) : DropChances :=
  let baseDropRate := max (0.05 : ℚ) (0.30 - level * 0.01)
  let legendaryWeight := min (0.05 : ℚ) (level * 0.002)
  let epicWeight := min (0.10 : ℚ) (level * 0.004)
  let rareWeight := min (0.20 : ℚ) (0.05 + level * 0.005)
  let uncommonWeight := min (0.30 : ℚ) (0.15 + level * 0.005)
  let commonWeight :=
    1 - legendaryWeight - epicWeight - rareWeight - uncommonWeight
  { dropRate := baseDropRate
  , common := commonWeight
  , uncommon := uncommonWeight
  , rare := rareWeight
  , epic := epicWeight
  , legendary := legendaryWeight }

/-- The fixed iteration order of the `for (const rarity of rarities)` loop
in `selectRarity`. -/
def rarityOrder : List Rarity :=
  [.common, .uncommon, .rare, .epic, .legendary]

/-- The loop body of `selectRarity`: walk the rarity list accumulating
cumulative weight, returning the first rarity whose cumulative bound
exceeds the roll. -/
def selectRarityGo (w : Rarity → ℚ) (roll : ℚ) :
    List Rarity → ℚ → Rarity
  | [], _ => .common
  | r :: rest, cumulative =>
    let c := cumulative + w r
    if roll < c then r else selectRarityGo w roll rest c

/-- `selectRarity` from lootService.ts: weighted rarity selection with a
`'common'` fallback after the loop. -/
def selectRarity (w : Rarity → ℚ) (roll : ℚ) : Rarity :=
  selectRarityGo w roll rarityOrder 0

/-! ## Profile data model (types.ts / profileService.ts)

Calendar dates (`YYYY-MM-DD` strings, compared and subtracted at UTC
midnight in the source) are embedded as epoch day numbers `Nat`; ISO
timestamps as `Nat`. -/

structure LootItem where
  name : String
  rarity : Rarity
  droppedAt : Nat
  source : LootSource
deriving DecidableEq, Repr

structure UndoEntry where
  path : String
  xpLost : Nat
  wasBoss : Bool
  timestamp : Nat
deriving DecidableEq, Repr

/-- The `stats` bag of counters. `completedByDay` is the per-day
completion-count map (absent keys read as `0`, matching `|| 0`). -/
structure Stats where
  completedByDay : Nat → Nat
  deepestDepth : Nat
  speedruns : Nat
  earlyBirdTasks : Nat
  nightOwlTasks : Nat

structure Profile where
  totalXP : Nat
  level : Nat
  tasksCompleted : Nat
  bossesDefeated : Nat
  currentStreak : Nat
  longestStreak : Nat
  lastCompletionDate : Option Nat
  achievements : List String
  inventory : List LootItem
  undoHistory : List UndoEntry
  stats : Stats

structure CompletionResult where
  xpGained : Nat
  levelUp : Bool
  oldLevel : Nat
  newLevel : Nat
  newAchievements : List String
  lootDropped : Option LootItem

structure UndoResult where
  success : Bool
  xpLost : Nat
  message : String
deriving DecidableEq, Repr

/-! ## Achievement evaluator (profileService.ts `checkAchievements`) -/

structure AchievementThresholds where
  tasks : List Nat
  bosses : List Nat
  streaks : List Nat
  depths : List Nat
  levels : List Nat
  xp : List Nat

/-- `ACHIEVEMENT_THRESHOLDS` from types.ts (its content is among the
provided sources, inside src/src/ui/aiPreviewModal.ts): the fixed ascending
threshold table per achievement category. -/
def ACHIEVEMENT_THRESHOLDS : AchievementThresholds :=
  { tasks := [1, 10, 50, 100, 250, 500, 1000, 2500, 5000, 10000]
  , bosses := [1, 5, 10, 25, 50, 100, 250, 500]
  , streaks := [3, 7, 14, 30, 60, 90, 180, 365]
  , depths := [3, 5, 7, 10, 15, 20]
  , levels := [5, 10, 25, 50, 100, 150, 200]
  , xp := [1000, 5000, 10000, 50000, 100000, 500000, 1000000] }

/-- `getAchievementId` from profileService.ts. -/
def getAchievementId (ty : String) (threshold : Nat) : String :=
  ty ++ "_" ++ toString threshold

/-- The `checkAchievement` closure: state is the pair
(achievement list of the profile, newly unlocked ids). -/
def checkAchievement (st : List String × List String) (id : String) :
    List String × List String :=
  if id ∈ st.1 then st else (st.1 ++ [id], st.2 ++ [id])

/-- `ProfileService.checkAchievements`, as a pure function of the already
updated profile counters. Returns (new achievement list, newly unlocked
ids). -/
def checkAchievements (achievements : List String)
    (tasksCompleted bossesDefeated deepestDepth currentStreak level
      totalXP : Nat)
    (createdDate : Option Nat) (today : Nat) (hour : Nat) :
    List String × List String :=
  let st := (achievements, ([] : List String))
  let st := ACHIEVEMENT_THRESHOLDS.tasks.foldl (fun st t =>
    if t ≤ tasksCompleted then checkAchievement st (getAchievementId "tasks" t)
    else st) st
  let st := ACHIEVEMENT_THRESHOLDS.bosses.foldl (fun st t =>
    if t ≤ bossesDefeated then checkAchievement st (getAchievementId "bosses" t)
    else st) st
  let st := ACHIEVEMENT_THRESHOLDS.depths.foldl (fun st t =>
    if t ≤ deepestDepth then checkAchievement st (getAchievementId "depth" t)
    else st) st
  let st := ACHIEVEMENT_THRESHOLDS.streaks.foldl (fun st t =>
    if t ≤ currentStreak then checkAchievement st (getAchievementId "streak" t)
    else st) st
  let st := ACHIEVEMENT_THRESHOLDS.levels.foldl (fun st t =>
    if t ≤ level then checkAchievement st (getAchievementId "level" t)
    else st) st
  let st := ACHIEVEMENT_THRESHOLDS.xp.foldl (fun st t =>
    if t ≤ totalXP then checkAchievement st (getAchievementId "xp" t)
    else st) st
  let st := if createdDate = some today then checkAchievement st "speedrun"
    else st
  let st := if hour < 5 then checkAchievement st "nightowl" else st
  let st := if 5 ≤ hour ∧ hour < 7 then checkAchievement st "earlybird"
    else st
  st

/-! ## Completion/undo ledger (profileService.ts)

The ambient clock of the source (`new Date()`) is passed explicitly as
`today` (epoch day) and `hour`; the three possible `rollForLoot` outcomes
(task/boss roll, level-up roll, achievement roll) are passed as oracle
arguments, `none` meaning "no drop". `save()` is folded into each
operation: it recomputes `level = levelFromXP totalXP` and hands the
profile to the persistence callback; operations that reach `save()` set
their persistence flag accordingly. -/

/-- `ProfileService.completeTask`. Returns the mutated profile and the
`CompletionResult`. -/
def completeTask (p : Profile) (xp : Nat) (isBoss : Bool) (depth : Nat)
    (createdDate : Option Nat) (today : Nat) (hour : Nat)
    (taskRoll levelRoll achRoll : Option LootItem) :
    Profile × CompletionResult :=
  let oldLevel := p.level
  let totalXP := p.totalXP + xp
  let tasksCompleted := p.tasksCompleted + 1
  let bossesDefeated :=
    if isBoss then p.bossesDefeated + 1 else p.bossesDefeated
  let speedruns :=
    if createdDate = some today then p.stats.speedruns + 1
    else p.stats.speedruns
  let earlyBirdTasks :=
    if hour < 6 then p.stats.earlyBirdTasks + 1 else p.stats.earlyBirdTasks
  let nightOwlTasks :=
    if hour < 5 then p.stats.nightOwlTasks + 1 else p.stats.nightOwlTasks
  let deepestDepth := max p.stats.deepestDepth depth
  let currentStreak :=
    match p.lastCompletionDate with
    | some last =>
      let diffDays : Int := (today : Int) - (last : Int)
      if diffDays = 1 then p.currentStreak + 1
      else if 1 < diffDays then 1
      else p.currentStreak
    | none => 1
  let longestStreak := max p.longestStreak currentStreak
  let completedByDay := fun d =>
    if d = today then p.stats.completedByDay today + 1
    else p.stats.completedByDay d
  let level := levelFromXP totalXP
  let levelUp := decide (oldLevel < level)
  let ach := checkAchievements p.achievements tasksCompleted bossesDefeated
    deepestDepth currentStreak level totalXP createdDate today hour
  let achievements := ach.1
  let newAchievements := ach.2
  let inventory1 :=
    match taskRoll with
    | some item => p.inventory ++ [item]
    | none => p.inventory
  let lootDropped1 : Option LootItem := taskRoll
  let inventory2 :=
    if levelUp then
      match levelRoll with
      | some item => inventory1 ++ [item]
      | none => inventory1
    else inventory1
  let lootDropped2 :=
    if levelUp then lootDropped1 <|> levelRoll else lootDropped1
  let inventory3 :=
    if 0 < newAchievements.length then
      match achRoll with
      | some item => inventory2 ++ [item]
      | none => inventory2
    else inventory2
  let lootDropped3 :=
    if 0 < newAchievements.length then lootDropped2 <|> achRoll
    else lootDropped2
  ({ totalXP := totalXP
   , level := level
   , tasksCompleted := tasksCompleted
   , bossesDefeated := bossesDefeated
   , currentStreak := currentStreak
   , longestStreak := longestStreak
   , lastCompletionDate := some today
   , achievements := achievements
   , inventory := inventory3
   , undoHistory := p.undoHistory
   , stats :=
     { completedByDay := completedByDay
     , deepestDepth := deepestDepth
     , speedruns := speedruns
     , earlyBirdTasks := earlyBirdTasks
     , nightOwlTasks := nightOwlTasks } },
   { xpGained := xp
   , levelUp := levelUp
   , oldLevel := oldLevel
   , newLevel := level
   , newAchievements := newAchievements
   , lootDropped := lootDropped3 })

/-- `ProfileService.performUndo`. The trailing `Bool` records whether
`save()` (persistence) was reached. `Math.max(0, a - b)` on the integer
counters coincides with truncated `Nat` subtraction. -/
def performUndo (p : Profile) (today : Nat) :
    Profile × UndoResult × Bool :=
  match p.undoHistory with
  | [] => (p, { success := false, xpLost := 0, message := "Nothing to undo" },
      false)
  | entry :: rest =>
    let totalXP := p.totalXP - entry.xpLost
    let tasksCompleted := p.tasksCompleted - 1
    let bossesDefeated :=
      if entry.wasBoss then p.bossesDefeated - 1 else p.bossesDefeated
    let completedByDay :=
      if p.stats.completedByDay today ≠ 0 then
        fun d =>
          if d = today then p.stats.completedByDay today - 1
          else p.stats.completedByDay d
      else p.stats.completedByDay
    ({ p with
        totalXP := totalXP
      , tasksCompleted := tasksCompleted
      , bossesDefeated := bossesDefeated
      , level := levelFromXP totalXP
      , undoHistory := rest
      , stats := { p.stats with completedByDay := completedByDay } },
     { success := true
     , xpLost := entry.xpLost
     , message := "Undo: -" ++ toString entry.xpLost ++ " XP" },
     true)

/-- `ProfileService.addUndoEntry`: prepend the record, evict beyond 10,
then `save()` (which recomputes `level`). -/
def addUndoEntry (p : Profile) (path : String) (xpLost : Nat)
    (wasBoss : Bool) (timestamp : Nat) : Profile :=
  let hist : List UndoEntry :=
    { path := path, xpLost := xpLost, wasBoss := wasBoss
    , timestamp := timestamp } :: p.undoHistory
  let hist := if 10 < hist.length then hist.take 10 else hist
  { p with undoHistory := hist, level := levelFromXP p.totalXP }

/-- The caller sequence in `RoguelikePlugin.toggleGoalDone` (main.ts):
`completeTask` followed by `addUndoEntry` with the same xp value and boss
flag. -/
structure TaskEvent where
  xp : Nat
  isBoss : Bool
  depth : Nat
  createdDate : Option Nat
  today : Nat
  hour : Nat
  taskRoll : Option LootItem
  levelRoll : Option LootItem
  achRoll : Option LootItem
  path : String
  timestamp : Nat

def entryOf (e : TaskEvent) : UndoEntry :=
  { path := e.path, xpLost := e.xp, wasBoss := e.isBoss
  , timestamp := e.timestamp }

/-- One completion as driven by `toggleGoalDone`: `completeTask`, then
`addUndoEntry(path, xp, isBoss)`. -/
def completeAndRecord (p : Profile) (e : TaskEvent) : Profile :=
  let p1 := (completeTask p e.xp e.isBoss e.depth e.createdDate e.today
    e.hour e.taskRoll e.levelRoll e.achRoll).1
  addUndoEntry p1 e.path e.xp e.isBoss e.timestamp

/-- A concrete fresh profile used to exercise the theorems below
(mirrors a freshly created default profile). -/
def sampleProfile : Profile :=
  { totalXP := 0
  , level := 1
  , tasksCompleted := 0
  , bossesDefeated := 0
  , currentStreak := 0
  , longestStreak := 0
  , lastCompletionDate := none
  , achievements := []
  , inventory := []
  , undoHistory := []
  , stats :=
    { completedByDay := fun _ => 0
    , deepestDepth := 0
    , speedruns := 0
    , earlyBirdTasks := 0
    , nightOwlTasks := 0 } }

/-- A concrete profile with one undo record, used to exercise the
nonempty-history theorems below. -/
def sampleProfileOneUndo : Profile :=
  { sampleProfile with
      totalXP := 10
    , tasksCompleted := 1
    , undoHistory :=
        [{ path := "Quest/Quest.md", xpLost := 10, wasBoss := false
         , timestamp := 0 }] }

/-! ## Claims -/

/-- Claim C1, counterexample: `completeTask` itself does not append any
`UndoEntry`. On a fresh profile with empty `undoHistory`, completing a
10-XP non-boss task leaves `undoHistory` empty, so the operation did not
append a record of the completion before returning. -/
theorem completeTask_appends_no_undo :
    ((completeTask sampleProfile 10 false 0 none 20000 12 none none
      none).1).undoHistory = [] ∧ sampleProfile.undoHistory = [] :=
  ⟨rfl, rfl⟩

/-- Claim C1 (amended): `completeTask` leaves `undoHistory` unchanged; the
UndoEntry recording the completion is appended by the separate
`addUndoEntry` operation, which the caller (`toggleGoalDone` in main.ts)
invokes right after `completeTask` returns, and which prepends the entry
and evicts entries beyond 10 (its result is the first 10 entries of the
new front followed by the old history). -/
theorem undo_entry_appended_by_caller :
    (∀ p xp isBoss depth createdDate today hour taskRoll levelRoll achRoll,
      ((completeTask p xp isBoss depth createdDate today hour taskRoll
        levelRoll achRoll).1).undoHistory = p.undoHistory) ∧
    (∀ p path xpLost wasBoss timestamp,
      (addUndoEntry p path xpLost wasBoss timestamp).undoHistory =
        ({ path := path, xpLost := xpLost, wasBoss := wasBoss
         , timestamp := timestamp } :: p.undoHistory).take 10) := by
  refine ⟨fun _ _ _ _ _ _ _ _ _ _ => rfl, fun p path xpLost wasBoss ts => ?_⟩
  show (if 10 < _ then _ else _) = _
  split
  · rfl
  · rename_i hlen
    exact (List.take_of_length_le (by omega)).symm

/-- Claim C3: every ledger operation that reaches `save()` stores
`level = levelFromXP totalXP`: this holds after `completeTask`, after
`addUndoEntry`, and after any `performUndo` on a nonempty history (the
empty-history case returns early without mutating or persisting). -/
theorem level_invariant_after_ledger_ops :
    (∀ p xp isBoss depth createdDate today hour taskRoll levelRoll achRoll,
      ((completeTask p xp isBoss depth createdDate today hour taskRoll
        levelRoll achRoll).1).level =
        levelFromXP ((completeTask p xp isBoss depth createdDate today hour
          taskRoll levelRoll achRoll).1).totalXP) ∧
    (∀ p path xpLost wasBoss timestamp,
      (addUndoEntry p path xpLost wasBoss timestamp).level =
        levelFromXP (addUndoEntry p path xpLost wasBoss timestamp).totalXP) ∧
    (∀ p today, p.undoHistory ≠ [] →
      ((performUndo p today).1).level =
        levelFromXP ((performUndo p today).1).totalXP) := by
  refine ⟨fun _ _ _ _ _ _ _ _ _ _ => rfl, fun _ _ _ _ _ => rfl,
    fun p today h => ?_⟩
  match hh : p.undoHistory with
  | [] => exact absurd hh h
  | entry :: rest =>
    simp only [performUndo, hh]

/-- Witness for C3: the three conjuncts at concrete inputs, including a
`performUndo` on a concrete nonempty history. -/
theorem level_invariant_witness :
    (((completeTask sampleProfile 10 false 0 none 20000 12 none none
      none).1).level =
      levelFromXP ((completeTask sampleProfile 10 false 0 none 20000 12
        none none none).1).totalXP) ∧
    ((addUndoEntry sampleProfile "Quest/Quest.md" 10 false 0).level =
      levelFromXP
        ((addUndoEntry sampleProfile "Quest/Quest.md" 10 false 0).totalXP)) ∧
    (((performUndo sampleProfileOneUndo 20000).1).level =
      levelFromXP ((performUndo sampleProfileOneUndo 20000).1).totalXP) :=
  ⟨level_invariant_after_ledger_ops.1 sampleProfile 10 false 0 none 20000 12
      none none none,
   level_invariant_after_ledger_ops.2.1 sampleProfile "Quest/Quest.md" 10
      false 0,
   level_invariant_after_ledger_ops.2.2 sampleProfileOneUndo 20000
      (by simp [sampleProfileOneUndo])⟩

/-- Claim C4: `performUndo` on an empty `undoHistory` returns the failure
result `success = false`, `xpLost = 0`, message `"Nothing to undo"`,
leaves the profile exactly as it was, and does not persist (it returns
before `save()`); being a total function it raises nothing. -/
theorem performUndo_empty_noop (p : Profile) (today : Nat)
    (h : p.undoHistory = []) :
    performUndo p today =
      (p, { success := false, xpLost := 0, message := "Nothing to undo" },
        false) := by
  simp only [performUndo, h]

/-- Witness for C4: a fresh profile with empty history. -/
theorem performUndo_empty_noop_witness :
    performUndo sampleProfile 20000 =
      (sampleProfile,
        { success := false, xpLost := 0, message := "Nothing to undo" },
        false) :=
  performUndo_empty_noop sampleProfile 20000 rfl

/-- `performUndo` on a profile whose history starts with `entry`: the field
deltas of the popped entry are reversed and `achievements` is untouched. -/
theorem performUndo_cons (p : Profile) (entry : UndoEntry)
    (rest : List UndoEntry) (today : Nat)
    (h : p.undoHistory = entry :: rest) :
    ((performUndo p today).1).totalXP = p.totalXP - entry.xpLost ∧
      ((performUndo p today).1).tasksCompleted = p.tasksCompleted - 1 ∧
      ((performUndo p today).1).achievements = p.achievements := by
  obtain ⟨tX, lv, tc, bd, cs, ls, lcd, ach, inv, uh, st⟩ := p
  simp only at h
  subst h
  exact ⟨rfl, rfl, rfl⟩

/-- Claim C2: completing a task (with the caller's matching
`addUndoEntry`, as `toggleGoalDone` performs it) and then undoing restores
`totalXP` and `tasksCompleted` to their pre-completion values, while the
achievement list is exactly the one the completion produced — `performUndo`
removes no achievement. -/
theorem undo_restores_xp_tasks_keeps_achievements
    (p0 : Profile) (xp : Nat) (isBoss : Bool) (depth : Nat)
    (createdDate : Option Nat) (today hour : Nat)
    (taskRoll levelRoll achRoll : Option LootItem)
    (path : String) (timestamp : Nat) (undoDay : Nat) :
    let p1 := (completeTask p0 xp isBoss depth createdDate today hour
      taskRoll levelRoll achRoll).1
    let p2 := addUndoEntry p1 path xp isBoss timestamp
    let p3 := (performUndo p2 undoDay).1
    p3.totalXP = p0.totalXP ∧ p3.tasksCompleted = p0.tasksCompleted ∧
      p3.achievements = p1.achievements := by
  intro p1 p2 p3
  have hrest : ∃ rest, p2.undoHistory =
      { path := path, xpLost := xp, wasBoss := isBoss
      , timestamp := timestamp } :: rest := by
    have h2 : p2.undoHistory =
        (if 10 < (UndoEntry.mk path xp isBoss timestamp ::
            p1.undoHistory).length
         then (UndoEntry.mk path xp isBoss timestamp ::
            p1.undoHistory).take 10
         else UndoEntry.mk path xp isBoss timestamp :: p1.undoHistory) :=
      rfl
    rw [h2]
    split
    · exact ⟨p1.undoHistory.take 9, rfl⟩
    · exact ⟨p1.undoHistory, rfl⟩
  obtain ⟨rest, hrest⟩ := hrest
  obtain ⟨hx, ht, ha⟩ := performUndo_cons p2 _ rest undoDay hrest
  refine ⟨?_, ?_, ?_⟩
  · rw [show p3.totalXP = (performUndo p2 undoDay).1.totalXP from rfl, hx]
    show p0.totalXP + xp - xp = p0.totalXP
    omega
  · rw [show p3.tasksCompleted = (performUndo p2 undoDay).1.tasksCompleted
      from rfl, ht]
    show p0.tasksCompleted + 1 - 1 = p0.tasksCompleted
    omega
  · exact ha

/-- Claim C5: the streak rule of `completeTask`. With `d` the last
completion day: a gap of exactly one day increments `currentStreak`; a gap
of more than one day resets it to 1; no prior completion sets it to 1; a
same-day repeat leaves it unchanged. -/
theorem streak_update_rule (p : Profile) (xp : Nat) (isBoss : Bool)
    (depth : Nat) (createdDate : Option Nat) (today hour : Nat)
    (taskRoll levelRoll achRoll : Option LootItem) :
    (∀ d, p.lastCompletionDate = some d → today = d + 1 →
      ((completeTask p xp isBoss depth createdDate today hour taskRoll
        levelRoll achRoll).1).currentStreak = p.currentStreak + 1) ∧
    (∀ d, p.lastCompletionDate = some d → d + 1 < today →
      ((completeTask p xp isBoss depth createdDate today hour taskRoll
        levelRoll achRoll).1).currentStreak = 1) ∧
    (p.lastCompletionDate = none →
      ((completeTask p xp isBoss depth createdDate today hour taskRoll
        levelRoll achRoll).1).currentStreak = 1) ∧
    (p.lastCompletionDate = some today →
      ((completeTask p xp isBoss depth createdDate today hour taskRoll
        levelRoll achRoll).1).currentStreak = p.currentStreak) := by
  have hcs : ((completeTask p xp isBoss depth createdDate today hour
      taskRoll levelRoll achRoll).1).currentStreak =
      (match p.lastCompletionDate with
       | some last =>
         let diffDays : Int := (today : Int) - (last : Int)
         if diffDays = 1 then p.currentStreak + 1
         else if 1 < diffDays then 1
         else p.currentStreak
       | none => 1) := rfl
  refine ⟨fun d hd hgap => ?_, fun d hd hgap => ?_, fun hd => ?_,
    fun hd => ?_⟩
  · rw [hcs, hd]
    dsimp only
    rw [if_pos (by omega)]
  · rw [hcs, hd]
    dsimp only
    rw [if_neg (by omega), if_pos (by omega)]
  · rw [hcs, hd]
  · rw [hcs, hd]
    dsimp only
    rw [if_neg (by omega), if_neg (by omega)]

/-- A concrete profile last completed on day 4 with a running streak of 2,
used to exercise the streak rule. -/
def streakProfile : Profile :=
  { sampleProfile with lastCompletionDate := some 4, currentStreak := 2 }

/-- Witness for C5: the four streak branches at concrete inputs: a profile
last completed on day 4 hit on days 5 (gap 1), 7 (gap 3) and 4 (same day),
and a fresh profile (no prior completion). -/
theorem streak_update_rule_witness :
    (((completeTask streakProfile 10 false 0 none 5 12 none none
        none).1).currentStreak = streakProfile.currentStreak + 1) ∧
    (((completeTask streakProfile 10 false 0 none 7 12 none none
        none).1).currentStreak = 1) ∧
    (((completeTask sampleProfile 10 false 0 none 5 12 none none
        none).1).currentStreak = 1) ∧
    (((completeTask streakProfile 10 false 0 none 4 12 none none
        none).1).currentStreak = streakProfile.currentStreak) :=
  ⟨(streak_update_rule streakProfile 10 false 0 none 5 12 none none
      none).1 4 rfl rfl,
   (streak_update_rule streakProfile 10 false 0 none 7 12 none none
      none).2.1 4 rfl (by omega),
   (streak_update_rule sampleProfile 10 false 0 none 5 12 none none
      none).2.2.1 rfl,
   (streak_update_rule streakProfile 10 false 0 none 4 12 none none
      none).2.2.2 rfl⟩

/-- One `toggleGoalDone`-style completion leaves the first 10 entries of
the history extended at the front with the record of this completion. -/
theorem completeAndRecord_undoHistory (p : Profile) (e : TaskEvent) :
    (completeAndRecord p e).undoHistory =
      (entryOf e :: p.undoHistory).take 10 := by
  have h : (completeAndRecord p e).undoHistory =
      (if 10 < (entryOf e :: p.undoHistory).length
       then (entryOf e :: p.undoHistory).take 10
       else entryOf e :: p.undoHistory) := rfl
  rw [h]
  split
  · rfl
  · rename_i hlen
    exact (List.take_of_length_le (by omega)).symm

/-- Claim C6: `addUndoEntry` always leaves at most 10 entries, and after 11
recorded completions starting from an empty history the history holds
exactly the 10 most recent entries, most recent first, the first (oldest)
evicted. -/
theorem undoHistory_bounded_and_evicts :
    (∀ p path xpLost wasBoss timestamp,
      (addUndoEntry p path xpLost wasBoss timestamp).undoHistory.length
        ≤ 10) ∧
    (∀ (p : Profile) (e1 e2 e3 e4 e5 e6 e7 e8 e9 e10 e11 : TaskEvent),
      (([e1, e2, e3, e4, e5, e6, e7, e8, e9, e10, e11].foldl
          completeAndRecord { p with undoHistory := [] })).undoHistory =
        [entryOf e11, entryOf e10, entryOf e9, entryOf e8, entryOf e7,
          entryOf e6, entryOf e5, entryOf e4, entryOf e3, entryOf e2]) := by
  constructor
  · intro p path xpLost wasBoss ts
    have h : (addUndoEntry p path xpLost wasBoss ts).undoHistory =
        (if 10 < (UndoEntry.mk path xpLost wasBoss ts ::
            p.undoHistory).length
         then (UndoEntry.mk path xpLost wasBoss ts ::
            p.undoHistory).take 10
         else UndoEntry.mk path xpLost wasBoss ts :: p.undoHistory) := rfl
    rw [h]
    split
    · rw [List.length_take]
      omega
    · rename_i hlen
      omega
  · intro p e1 e2 e3 e4 e5 e6 e7 e8 e9 e10 e11
    simp only [List.foldl_cons, List.foldl_nil,
      completeAndRecord_undoHistory]
    rfl

/-- Claim C7: for every level in [0, 200] the five rarity weights of
`getDropChances` are nonnegative and sum to exactly 1 (`common` being
defined as the remainder of the four capped weights, whose caps total
0.65). -/
theorem dropChances_weights_nonneg_sum_one (level : ℚ)
    (h0 : 0 ≤ level) (_h200 : level ≤ 200) :
    0 ≤ (getDropChances level).common ∧
      0 ≤ (getDropChances level).uncommon ∧
      0 ≤ (getDropChances level).rare ∧
      0 ≤ (getDropChances level).epic ∧
      0 ≤ (getDropChances level).legendary ∧
      (getDropChances level).common + (getDropChances level).uncommon +
        (getDropChances level).rare + (getDropChances level).epic +
        (getDropChances level).legendary = 1 := by
  have hleg : (getDropChances level).legendary =
      min (0.05 : ℚ) (level * 0.002) := rfl
  have hepic : (getDropChances level).epic =
      min (0.10 : ℚ) (level * 0.004) := rfl
  have hrare : (getDropChances level).rare =
      min (0.20 : ℚ) (0.05 + level * 0.005) := rfl
  have hunc : (getDropChances level).uncommon =
      min (0.30 : ℚ) (0.15 + level * 0.005) := rfl
  have hcom : (getDropChances level).common =
      1 - min (0.05 : ℚ) (level * 0.002) - min (0.10 : ℚ) (level * 0.004) -
        min (0.20 : ℚ) (0.05 + level * 0.005) -
        min (0.30 : ℚ) (0.15 + level * 0.005) := rfl
  have l1 : min (0.05 : ℚ) (level * 0.002) ≤ 0.05 := min_le_left _ _
  have l2 : min (0.10 : ℚ) (level * 0.004) ≤ 0.10 := min_le_left _ _
  have l3 : min (0.20 : ℚ) (0.05 + level * 0.005) ≤ 0.20 := min_le_left _ _
  have l4 : min (0.30 : ℚ) (0.15 + level * 0.005) ≤ 0.30 := min_le_left _ _
  refine ⟨?_, ?_, ?_, ?_, ?_, ?_⟩
  · rw [hcom]
    linarith
  · rw [hunc]
    refine le_min (by norm_num) (by nlinarith)
  · rw [hrare]
    refine le_min (by norm_num) (by nlinarith)
  · rw [hepic]
    refine le_min (by norm_num) (by nlinarith)
  · rw [hleg]
    refine le_min (by norm_num) (by nlinarith)
  · rw [hcom, hunc, hrare, hepic, hleg]
    ring

/-- Witness for C7: the weights at the concrete level 7. -/
theorem dropChances_weights_witness :
    0 ≤ (getDropChances 7).common ∧ 0 ≤ (getDropChances 7).uncommon ∧
      0 ≤ (getDropChances 7).rare ∧ 0 ≤ (getDropChances 7).epic ∧
      0 ≤ (getDropChances 7).legendary ∧
      (getDropChances 7).common + (getDropChances 7).uncommon +
        (getDropChances 7).rare + (getDropChances 7).epic +
        (getDropChances 7).legendary = 1 :=
  dropChances_weights_nonneg_sum_one 7 (by norm_num) (by norm_num)

/-- Claim C8: `levelFromXP` is at least 1 everywhere and non-decreasing. -/
theorem levelFromXP_pos_mono :
    (∀ xp : Nat, 1 ≤ levelFromXP xp) ∧
      (∀ xp1 xp2 : Nat, xp1 ≤ xp2 → levelFromXP xp1 ≤ levelFromXP xp2) := by
  constructor
  · intro xp
    exact levelFromXPAux_le xp 1 0
  · intro xp1 xp2 h
    exact levelFromXPAux_mono_fuel xp2 xp1 xp2 1 0 (by omega) h

/-- Witness for C8: concrete instances of both conjuncts. -/
theorem levelFromXP_pos_mono_witness :
    1 ≤ levelFromXP 0 ∧ levelFromXP 3 ≤ levelFromXP 250 :=
  ⟨levelFromXP_pos_mono.1 0, levelFromXP_pos_mono.2 3 250 (by omega)⟩

/-- Claim C9: for every xp the progress pair of `xpToNextLevel` satisfies
`0 ≤ current < required`. -/
theorem xpToNextLevel_current_bounds (xp : Nat) :
    0 ≤ (xpToNextLevel xp).current ∧
      (xpToNextLevel xp).current < (xpToNextLevel xp).required := by
  have h := levelFromXP_spec xp
  have hc : (xpToNextLevel xp).current =
      (xp : Int) - (sumXpBelow (levelFromXP xp) : Int) := rfl
  have hr : (xpToNextLevel xp).required =
      (xpForLevel (levelFromXP xp) : Int) := rfl
  rw [hc, hr]
  omega

/-- Claim C10: `selectRarity` is total — it always returns one of the five
tiers — and when the roll is at least the cumulative sum of all five
(nonnegative) weights, every loop test fails and the final fallback
returns `common`. -/
theorem selectRarity_total_fallback (w : Rarity → ℚ) (roll : ℚ) :
    selectRarity w roll ∈ rarityOrder ∧
      ((∀ r, 0 ≤ w r) →
        w .common + w .uncommon + w .rare + w .epic + w .legendary ≤ roll →
        selectRarity w roll = .common) := by
  constructor
  · show selectRarityGo w roll rarityOrder 0 ∈ rarityOrder
    simp only [selectRarityGo, rarityOrder]
    split_ifs <;> simp
  · intro hnn hsum
    have h1 := hnn .common
    have h2 := hnn .uncommon
    have h3 := hnn .rare
    have h4 := hnn .epic
    have h5 := hnn .legendary
    show selectRarityGo w roll rarityOrder 0 = .common
    simp only [selectRarityGo, rarityOrder]
    split_ifs <;> first
      | rfl
      | (exfalso; linarith)

def uniformWeights : Rarity → ℚ := fun _ => 0.2

/-- Witness for C10: with uniform weights summing to 1 and a roll of 2, the
fallback fires and yields `common`. -/
theorem selectRarity_total_fallback_witness :
    selectRarity uniformWeights 2 = Rarity.common :=
  (selectRarity_total_fallback uniformWeights 2).2
    (fun r => by norm_num [uniformWeights])
    (by norm_num [uniformWeights])
